import Mathlib

/-!
Verification of the static-site MCP search server: a shallow embedding of the
front-matter parsers, document normalizers and URL derivation of the build-time
adapters (adapters/generic/generate-index.js, the Hugo variant, and
adapters/astro/search-index.mjs), of the index cache, query and formatting
layer of the worker (src/index.ts), and of the JSON index artifact, together
with theorems settling the specification's testable properties.

Strings are modelled through their character lists so that every operation is
structural and evaluates inside the kernel; each helper mirrors the JavaScript
string primitive the source uses.
-/

/-- JavaScript whitespace characters relevant to the sources (space, tab,
newline, carriage return), as consumed by `String.prototype.trim`. -/
def wsChar (c : Char) : Bool :=
  c = ' ' || c = '\t' || c = '\n' || c = '\r'

/-- Trim whitespace from both ends of a character list. -/
def trimChars (cs : List Char) : List Char :=
  ((cs.dropWhile wsChar).reverse.dropWhile wsChar).reverse

/-- JavaScript `s.trim()`. -/
def jsTrim (s : String) : String := ⟨trimChars s.data⟩

/-- JavaScript `s.startsWith(t)`. -/
def jsStarts (s t : String) : Bool := t.data.isPrefixOf s.data

/-- JavaScript `s.endsWith(t)`. -/
def jsEnds (s t : String) : Bool := t.data.isSuffixOf s.data

/-- JavaScript `s.slice(n)` for a non-negative index. -/
def jsDrop (s : String) (n : Nat) : String := ⟨s.data.drop n⟩

/-- JavaScript `s.substring(0, n)`. -/
def jsTake (s : String) (n : Nat) : String := ⟨s.data.take n⟩

/-- JavaScript `s.slice(0, -n)` (drop `n` characters from the end). -/
def jsDropRight (s : String) (n : Nat) : String := ⟨s.data.take (s.data.length - n)⟩

/-- JavaScript `s.length`. -/
def jsLen (s : String) : Nat := s.data.length

/-- Split a character list at every occurrence of a separator character,
mirroring JavaScript `s.split(c)` (so the empty string yields `[""]`). -/
def splitChar (sep : Char) : List Char → List (List Char)
  | [] => [[]]
  | c :: rest =>
    match splitChar sep rest with
    | [] => if c = sep then [[], []] else [[c]]
    | p :: ps => if c = sep then [] :: p :: ps else (c :: p) :: ps

/-- Index of the first occurrence of a (non-empty) separator string inside a
character list, as a lazy regular-expression group boundary would find it. -/
def findSepIdx (sep : List Char) : List Char → Option Nat
  | [] => none
  | c :: rest =>
    if sep.isPrefixOf (c :: rest) then some 0
    else (findSepIdx sep rest).map (· + 1)

/-- JavaScript `line.indexOf(c)`: index of the first occurrence of a
character. -/
def idxOfChar (c : Char) : List Char → Option Nat
  | [] => none
  | x :: rest => if x = c then some 0 else (idxOfChar c rest).map (· + 1)

/-- The single-quote character (written numerically for lexical hygiene). -/
def squo : Char := Char.ofNat 39

/-- Is this character a double or single quote? -/
def quoteChar (c : Char) : Bool := c = '"' || c = squo

/-- Whether the first character of `s` is `c`, as `s.startsWith(c)` would test
for a one-character needle. -/
def headIs (s : String) (c : Char) : Bool := s.data.head? = some c

/-- Whether the last character of `s` is `c`, as `s.endsWith(c)` would test
for a one-character needle. -/
def lastIs (s : String) (c : Char) : Bool := s.data.getLast? = some c

/-- Remove one leading quote character, if present. -/
def dropLeadQuote : List Char → List Char
  | [] => []
  | c :: rest => if quoteChar c then rest else c :: rest

/-- JavaScript `v.replace(/^["']|["']$/g, '')`: strip at most one leading and
one trailing quote character, independently. -/
def stripQuotesOnce (s : String) : String :=
  ⟨(dropLeadQuote ((dropLeadQuote s.data).reverse)).reverse⟩

/-- `inner.split(',').map(s => s.trim().replace(/^["']|["']$/g, ''))` — the
element-wise cleanup all three adapters apply to bracketed lists. -/
def parseListValue (inner : String) : List String :=
  (splitChar ',' inner.data).map (fun cs => stripQuotesOnce (jsTrim ⟨cs⟩))

/-- A parsed front-matter value: the adapters produce strings, arrays of
strings, or (in the Hugo adapter only) booleans. -/
inductive FMValue where
  | str (s : String)
  | list (xs : List String)
  | bool (b : Bool)
deriving DecidableEq

/-- JavaScript object property assignment `fm[key] = v` on an association
list: replace in place if the key exists, otherwise append. -/
def fmSet : List (String × FMValue) → String → FMValue → List (String × FMValue)
  | [], k, v => [(k, v)]
  | (k', v') :: rest, k, v =>
    if k' = k then (k, v) :: rest else (k', v') :: fmSet rest k v

/-- JavaScript property read `fm[key]` (`none` models `undefined`). -/
def fmGet (fm : List (String × FMValue)) (k : String) : Option FMValue :=
  (fm.find? (fun kv => kv.1 == k)).map (·.2)

/-- JavaScript truthiness of a front-matter value (arrays are always truthy,
a string is truthy when non-empty). -/
def fmTruthy : FMValue → Bool
  | .str s => s != ""
  | .list _ => true
  | .bool b => b

/-- JavaScript `x || d` where `x` is a property read: the value when present
and truthy, otherwise the fallback. -/
def fmOr (v : Option FMValue) (d : FMValue) : FMValue :=
  match v with
  | some x => if fmTruthy x then x else d
  | none => d

/-- Split raw text at a `---` front-matter delimiter pair, following the
regular expression of the generic adapter: the text must start with a
delimiter line, the block ends at the first subsequent delimiter line, and
the remainder is the body. -/
def fmSplitYAML (content : String) : Option (String × String) :=
  if jsStarts content "---\n" then
    let rest := (jsDrop content 4).data
    match findSepIdx "\n---\n".data rest with
    | some i => some (⟨rest.take i⟩, ⟨rest.drop (i + 5)⟩)
    | none => none
  else none

/-- Value coercion of the generic adapter's YAML-style parser: bracketed
lists, then quoted scalars, otherwise the raw string (no boolean case). -/
def genCoerce (value : String) : FMValue :=
  if headIs value '[' && lastIs value ']' then
    .list (parseListValue (jsDropRight (jsDrop value 1) 1))
  else if (headIs value '"' && lastIs value '"') || (headIs value squo && lastIs value squo) then
    .str (jsDropRight (jsDrop value 1) 1)
  else .str value

/-- One line of the generic adapter's front-matter loop: split at the first
colon when it occurs at a positive index, trim key and value, coerce. -/
def parseLineGeneric (fm : List (String × FMValue)) (line : List Char) :
    List (String × FMValue) :=
  match idxOfChar ':' line with
  | some i =>
    if 0 < i then
      fmSet fm (jsTrim ⟨line.take i⟩) (genCoerce (jsTrim ⟨line.drop (i + 1)⟩))
    else fm
  | none => fm

/-- `parseFrontmatter` of adapters/generic/generate-index.js. -/
def parseFrontmatterGeneric (content : String) : List (String × FMValue) × String :=
  match fmSplitYAML content with
  | none => ([], content)
  | some (fmText, body) =>
    ((splitChar '\n' fmText.data).foldl parseLineGeneric [], body)

/-- Node `path.relative(base, p)`, modelled for the case the adapters rely on:
the file lies at or below the base directory. -/
def relativePath (base p : String) : String :=
  if p = base then ""
  else if jsStarts p (base ++ "/") then jsDrop p (jsLen base + 1)
  else p

/-- `.replace(/\\/g, '/')` — normalize Windows path separators. -/
def slashify (s : String) : String :=
  ⟨s.data.map (fun c => if c = '\\' then '/' else c)⟩

/-- Remove a suffix when present (one anchored `.replace(/suf$/, '')`). -/
def stripSuffix (s suf : String) : String :=
  if jsEnds s suf then jsDropRight s (jsLen suf) else s

/-- `pathToUrl` of adapters/generic/generate-index.js. -/
def pathToUrl (filePath contentDir : String) : String :=
  let url := "/" ++
    stripSuffix (stripSuffix (slashify (relativePath contentDir filePath)) ".md") "/index"
  if url = "/" then "/" else url

/-- Node `path.basename(p)`: the final path segment. -/
def basenameStr (p : String) : String :=
  ⟨((splitChar '/' p.data).getLast?).getD []⟩

/-- Node `path.basename(p, ext)`: the final segment, with the extension
removed when it is a proper suffix. -/
def basenameExt (p ext : String) : String :=
  let b := basenameStr p
  if jsEnds b ext && b != ext then jsDropRight b (jsLen ext) else b

/-- A normalized page as the build-time adapters emit it.  `title`,
`abstract`, `date` and `topics` keep the dynamic (string/list/boolean) type
the JavaScript fallback chains produce. -/
structure AdapterPage where
  url : String
  title : FMValue
  abstract : FMValue
  date : FMValue
  topics : FMValue
  body : String
deriving DecidableEq

/-- `processFile` of adapters/generic/generate-index.js (the file's text is
passed directly instead of being read from disk). -/
def processFileGeneric (content filePath contentDir : String) : Option AdapterPage :=
  let fm := (parseFrontmatterGeneric content).1
  let body := (parseFrontmatterGeneric content).2
  if fmGet fm "draft" = some (.bool true) ∨ fmGet fm "draft" = some (.str "true") then
    none
  else some
    { url := pathToUrl filePath contentDir
      title := fmOr (fmGet fm "title") (.str (basenameExt filePath ".md"))
      abstract := fmOr (fmGet fm "description")
        (fmOr (fmGet fm "summary") (fmOr (fmGet fm "abstract") (.str "")))
      date := fmOr (fmGet fm "date") (.str "")
      topics :=
        match fmGet fm "tags" with
        | some (.list l) => .list l
        | _ =>
          match fmGet fm "topics" with
          | some (.list l) => .list l
          | _ =>
            match fmGet fm "categories" with
            | some (.list l) => .list l
            | _ => .list []
      body := jsTrim body }

/-- A character of the regular-expression class `\w`. -/
def wordChar (c : Char) : Bool := c.isAlphanum || c = '_'

/-- One line of the Hugo adapter's TOML loop, `^(\w+)\s*=\s*(.+)$`: a word
key, an equals sign, and a non-empty remainder whose trimmed text is the
value (`m[2].trim()` in the source). -/
def parseLineTOML (line : List Char) : Option (String × String) :=
  let key := line.takeWhile wordChar
  if key.isEmpty then none
  else
    match (line.drop key.length).dropWhile wsChar with
    | '=' :: rest => if rest.isEmpty then none else some (⟨key⟩, jsTrim ⟨rest⟩)
    | _ => none

/-- Value coercion of the Hugo adapter (both dialects): bracketed lists and
quoted scalars are detected by their first character only, then the literal
booleans, otherwise the raw string. -/
def hugoCoerce (value : String) : FMValue :=
  if headIs value '[' then
    .list (parseListValue (jsDropRight (jsDrop value 1) 1))
  else if headIs value '"' || headIs value squo then
    .str (jsDropRight (jsDrop value 1) 1)
  else if value = "true" then .bool true
  else if value = "false" then .bool false
  else .str value

/-- Split raw text at a `+++` delimiter pair (Hugo's TOML front matter). -/
def fmSplitTOML (content : String) : Option (String × String) :=
  if jsStarts content "+++\n" then
    let rest := (jsDrop content 4).data
    match findSepIdx "\n+++\n".data rest with
    | some i => some (⟨rest.take i⟩, ⟨rest.drop (i + 5)⟩)
    | none => none
  else none

/-- `parseTOMLFrontmatter` of the Hugo adapter. -/
def parseTOMLFrontmatterHugo (content : String) :
    Option (List (String × FMValue) × String) :=
  match fmSplitTOML content with
  | none => none
  | some (fmText, body) =>
    some ((splitChar '\n' fmText.data).foldl
      (fun fm line =>
        match parseLineTOML line with
        | some (k, v) => fmSet fm k (hugoCoerce v)
        | none => fm) [], body)

/-- One line of the Hugo adapter's YAML loop: split at the first colon when
it occurs at a positive index, trim key and value, coerce. -/
def parseLineYAMLHugo (fm : List (String × FMValue)) (line : List Char) :
    List (String × FMValue) :=
  match idxOfChar ':' line with
  | some i =>
    if 0 < i then
      fmSet fm (jsTrim ⟨line.take i⟩) (hugoCoerce (jsTrim ⟨line.drop (i + 1)⟩))
    else fm
  | none => fm

/-- `parseYAMLFrontmatter` of the Hugo adapter. -/
def parseYAMLFrontmatterHugo (content : String) :
    Option (List (String × FMValue) × String) :=
  match fmSplitYAML content with
  | none => none
  | some (fmText, body) =>
    some ((splitChar '\n' fmText.data).foldl parseLineYAMLHugo [], body)

/-- `parseFrontmatter` of the Hugo adapter: TOML, then YAML, then the whole
text as body. -/
def parseFrontmatterHugo (content : String) : List (String × FMValue) × String :=
  match parseTOMLFrontmatterHugo content with
  | some r => r
  | none =>
    match parseYAMLFrontmatterHugo content with
    | some r => r
    | none => ([], content)

/-- Node `path.dirname`, modelled for relative paths without a leading
slash (the shape the Hugo adapter feeds it). -/
def dirnameStr (p : String) : String :=
  let parts := splitChar '/' p.data
  if parts.length ≤ 1 then "." else ⟨List.intercalate ['/'] parts.dropLast⟩

/-- `hugoPathToUrl` of the Hugo adapter. -/
def hugoPathToUrl (filePath contentDir : String) : String :=
  let url := "/" ++
    stripSuffix
      (stripSuffix (stripSuffix (slashify (relativePath contentDir filePath)) ".md")
        "/_index") "/index"
  let url :=
    if basenameStr filePath = "_index.md" then
      "/" ++ slashify (dirnameStr (relativePath contentDir filePath))
    else url
  if url = "/." then "/" else url

/-- `processFile` of the Hugo adapter (draft check is `=== true` only). -/
def hugoProcessFile (content filePath contentDir : String) : Option AdapterPage :=
  let fm := (parseFrontmatterHugo content).1
  let body := (parseFrontmatterHugo content).2
  if fmGet fm "draft" = some (.bool true) then none
  else some
    { url := hugoPathToUrl filePath contentDir
      title := fmOr (fmGet fm "title") (.str (basenameExt filePath ".md"))
      abstract := fmOr (fmGet fm "description") (fmOr (fmGet fm "summary") (.str ""))
      date := fmOr (fmGet fm "date") (.str "")
      topics := fmOr (fmGet fm "tags") (fmOr (fmGet fm "categories") (.list []))
      body := jsTrim body }

/-- Parser state of the Astro integration's front-matter loop. -/
structure AstroPS where
  fm : List (String × FMValue)
  currentKey : Option String
  currentValue : List String
  inArray : Bool

/-- Store the value accumulated for the current key, if any (`frontmatter[
currentKey] = inArray ? currentValue : currentValue.join('')`). -/
def astroFlush (st : AstroPS) : List (String × FMValue) :=
  match st.currentKey with
  | some k =>
    fmSet st.fm k
      (if st.inArray then .list st.currentValue else .str (String.join st.currentValue))
  | none => st.fm

/-- Match an indented list-continuation line, `/^\s+-\s+/`, returning the
text after the matched marker. -/
def astroArrayItem? (line : List Char) : Option (List Char) :=
  match line with
  | c :: _ =>
    if wsChar c then
      match line.dropWhile wsChar with
      | '-' :: rest =>
        match rest with
        | r :: _ => if wsChar r then some (rest.dropWhile wsChar) else none
        | [] => none
      | _ => none
    else none
  | [] => none

/-- Match a key line, `/^(\w+):\s*(.*)/`, returning key and trimmed value
(the value may be empty). -/
def astroKeyMatch? (line : List Char) : Option (String × String) :=
  let key := line.takeWhile wordChar
  if key.isEmpty then none
  else
    match line.drop key.length with
    | ':' :: rest => some (⟨key⟩, jsTrim ⟨rest⟩)
    | _ => none

/-- One line of the Astro integration's front-matter loop. -/
def astroStep (st : AstroPS) (line : List Char) : AstroPS :=
  match astroArrayItem? line with
  | some v =>
    match st.currentKey with
    | some _ => { st with currentValue := st.currentValue ++ [stripQuotesOnce ⟨v⟩] }
    | none => st
  | none =>
    match astroKeyMatch? line with
    | some (k, value) =>
      let fm := astroFlush st
      if value = "" || value = "|" || value = ">" then
        { fm := fm, currentKey := some k, currentValue := [], inArray := value = "" }
      else if headIs value '[' then
        { fm := fm, currentKey := some k,
          currentValue := parseListValue (jsDropRight (jsDrop value 1) 1), inArray := true }
      else
        { fm := fm, currentKey := some k,
          currentValue := [stripQuotesOnce value], inArray := false }
    | none => st

/-- `parseFrontmatter` of adapters/astro/search-index.mjs. -/
def astroParseFrontmatter (content : String) : List (String × FMValue) × String :=
  match fmSplitYAML content with
  | none => ([], content)
  | some (fmText, body) =>
    (astroFlush ((splitChar '\n' fmText.data).foldl astroStep ⟨[], none, [], false⟩), body)

/-- Slug derivation of the Astro integration: strip one `.md`/`.mdx`
extension, then a trailing `/index` segment. -/
def astroSlug (file : String) : String :=
  let s :=
    if jsEnds file ".mdx" then jsDropRight file 4
    else if jsEnds file ".md" then jsDropRight file 3
    else file
  stripSuffix s "/index"

/-- The per-file body of the Astro integration's build hook: draft and
exclusion filtering, then page construction. -/
def astroProcessEntry (excludeSlugs : List String) (file content : String) :
    Option AdapterPage :=
  let fm := (astroParseFrontmatter content).1
  let body := (astroParseFrontmatter content).2
  if fmGet fm "draft" = some (.str "true") ∨ fmGet fm "draft" = some (.bool true) then none
  else
    let slug := astroSlug file
    if slug ∈ excludeSlugs then none
    else some
      { url := "/" ++ slug
        title := fmOr (fmGet fm "title") (.str (basenameExt file ".md"))
        abstract := fmOr (fmGet fm "description") (fmOr (fmGet fm "summary") (.str ""))
        date := fmOr (fmGet fm "date") (fmOr (fmGet fm "pubDate") (.str ""))
        topics := fmOr (fmGet fm "tags") (fmOr (fmGet fm "topics") (.list []))
        body := jsTrim body }

/-- Site metadata as the worker's index schema declares it (`toolPfx` stands
for the schema's tool-prefix field, whose JSON key is kept verbatim in the
serializer below). -/
structure SiteMetadata where
  name : String
  domain : String
  description : Option String
  toolPfx : Option String
deriving DecidableEq

/-- A page of the worker's search index (optional fields model properties
that may be absent from the JSON artifact). -/
structure SearchPage where
  url : String
  title : String
  abstract : Option String
  date : Option String
  topics : Option (List String)
  body : Option String
deriving DecidableEq

/-- A JavaScript value as the worker handles it: a parsed JSON document
(`object.json()` returns `null`, a boolean, a number, a string, an array or
an object) together with `arrObj`, an array carrying expando string-keyed
properties — never produced by JSON parsing, but created when the site
migration assigns `data.site` on an array payload. -/
inductive JVal where
  | null
  | bool (b : Bool)
  | num (n : Int)
  | str (s : String)
  | arr (xs : List JVal)
  | obj (fields : List (String × JVal))
  | arrObj (xs : List JVal) (fields : List (String × JVal))

/-- Property read on a JSON object's field list (keys are unique in parsed
JSON, so the first match is the value). -/
def jLook (fields : List (String × JVal)) (k : String) : Option JVal :=
  (fields.find? (fun kv => kv.1 == k)).map (·.2)

/-- JavaScript property access `j[k]` (`none` models `undefined`; on an
array with expando properties the named properties are read). -/
def JVal.getField : JVal → String → Option JVal
  | .obj fields, k => jLook fields k
  | .arrObj _ fields, k => jLook fields k
  | _, _ => none

/-- JavaScript truthiness of a value. -/
def jTruthy : JVal → Bool
  | .null => false
  | .bool b => b
  | .num n => n != 0
  | .str s => s != ""
  | .arr _ => true
  | .obj _ => true
  | .arrObj _ _ => true

/-- Truthiness of a possibly-absent property. -/
def jTruthyOpt : Option JVal → Bool
  | none => false
  | some v => jTruthy v

/-- JavaScript property assignment on an object's field list: replace in
place if the key exists, otherwise append. -/
def jSet : List (String × JVal) → String → JVal → List (String × JVal)
  | [], k, v => [(k, v)]
  | (k', v') :: rest, k, v =>
    if k' = k then (k, v) :: rest else (k', v') :: jSet rest k v

/-- The default site metadata object synthesized for legacy (v2.x) indexes,
verbatim from src. -/
def defaultSiteJVal : JVal :=
  .obj [("name", .str "Website"), ("domain", .str "example.com"),
        ("description", .str "Search this website")]

/-- The legacy-migration step of `getSearchIndex` (`if (!data.site)
data.site = {...}`): when the value's site property is absent or falsy,
assign the default site metadata.  `none` models the TypeError the strict-
mode worker throws on a non-object payload: reading `.site` throws on
`null`, and creating the property throws on a boolean, number or string
primitive.  On an array the read yields `undefined` and the assignment
succeeds, attaching `site` as an expando property of the array. -/
def migrateIndex (j : JVal) : Option JVal :=
  match j with
  | .obj fields =>
    some (if jTruthyOpt (jLook fields "site") then .obj fields
      else .obj (jSet fields "site" defaultSiteJVal))
  | .arr xs => some (.arrObj xs (jSet [] "site" defaultSiteJVal))
  | .arrObj xs fields =>
    some (if jTruthyOpt (jLook fields "site") then .arrObj xs fields
      else .arrObj xs (jSet fields "site" defaultSiteJVal))
  | .null => none
  | .bool _ => none
  | .num _ => none
  | .str _ => none

/-- `CACHE_TTL_MS = 60 * 60 * 1000` from src. -/
def CACHE_TTL_MS : Int := 60 * 60 * 1000

/-- The module-level cache pair `cachedIndex` / `cacheTimestamp`. -/
structure CacheState where
  cachedIndex : Option JVal
  cacheTimestamp : Int

/-- The blob fetched for the index key: a payload whose `.json()` call either
fails or yields a parsed JSON document. -/
inductive R2Payload where
  | invalid
  | valid (j : JVal)

/-- The observable outcome of one `getSearchIndex` call: its result, the
cache pair afterwards, and how many blob-store fetches it performed. -/
structure FetchOutcome where
  result : Except String JVal
  state : CacheState
  fetches : Nat

/-- The fetch path of `getSearchIndex`: read the well-known key, fail if the
object is absent or its payload is not JSON, otherwise migrate, cache and
return.  (`store` is the content of the bucket at key "search-index.json".) -/
def getSearchIndexFetch (store : Option R2Payload) (st : CacheState) (now : Int) :
    FetchOutcome :=
  match store with
  | none => ⟨.error "Search index not found in R2 bucket: search-index.json", st, 1⟩
  | some .invalid => ⟨.error "Invalid JSON in search index payload", st, 1⟩
  | some (.valid j) =>
    match migrateIndex j with
    | some d => ⟨.ok d, ⟨some d, now⟩, 1⟩
    | none => ⟨.error "TypeError while migrating a non-object index payload", st, 1⟩

/-- `getSearchIndex` from src: serve the cached snapshot while it is fresh,
otherwise fetch. -/
def getSearchIndex (store : Option R2Payload) (st : CacheState) (now : Int) :
    FetchOutcome :=
  match st.cachedIndex with
  | some idx =>
    if now - st.cacheTimestamp < CACHE_TTL_MS then ⟨.ok idx, st, 0⟩
    else getSearchIndexFetch store st now
  | none => getSearchIndexFetch store st now

/-- The index artifact as a typed record; `site` is optional to cover legacy
(v2.x) files. -/
structure RawIndex where
  version : String
  generated : String
  site : Option SiteMetadata
  pageCount : Int
  pages : List SearchPage
deriving DecidableEq

/-- The index construction of adapters/generic/generate-index.js: version
tag, generation stamp, the site metadata, and an order-preserving copy of
the page sequence with its length. -/
def buildIndex (pages : List SearchPage) (site : SiteMetadata) (generatedAt : String) :
    RawIndex :=
  ⟨"3.0", generatedAt, some site, (pages.length : Int), pages⟩

/-- Serialize an optional string field, omitted when absent as
`JSON.stringify` omits `undefined` properties. -/
def optField (k : String) (v : Option String) : List (String × JVal) :=
  match v with
  | some s => [(k, .str s)]
  | none => []

/-- The JSON object written for the site metadata. -/
def encodeSite (s : SiteMetadata) : JVal :=
  .obj ([("name", .str s.name), ("domain", .str s.domain)] ++
    optField "description" s.description ++ optField "toolPrefix" s.toolPfx)

/-- The JSON object written for one page (field order as in the adapters). -/
def encodePage (p : SearchPage) : JVal :=
  .obj ([("url", .str p.url), ("title", .str p.title)] ++
    optField "abstract" p.abstract ++ optField "date" p.date ++
    (match p.topics with
     | some ts => [("topics", .arr (ts.map JVal.str))]
     | none => []) ++
    optField "body" p.body)

/-- The serialized index artifact (`JSON.stringify(index)` as a parsed
document; the byte round trip is the JSON library's own guarantee). -/
def encodeIndex (r : RawIndex) : JVal :=
  .obj ([("version", .str r.version), ("generated", .str r.generated)] ++
    (match r.site with
     | some s => [("site", encodeSite s)]
     | none => []) ++
    [("pageCount", .num r.pageCount), ("pages", .arr (r.pages.map encodePage))])

/-- Read a required string property, as the worker's field accesses do. -/
def decodeStr : Option JVal → Option String
  | some (.str s) => some s
  | _ => none

/-- Read an optional string property. -/
def decodeOptStr : Option JVal → Option (Option String)
  | none => some none
  | some (.str s) => some (some s)
  | some _ => none

/-- Read an array of strings. -/
def decodeStrList : List JVal → Option (List String)
  | [] => some []
  | .str s :: rest => (decodeStrList rest).map (s :: ·)
  | _ => none

/-- Read an optional topics array. -/
def decodeOptTopics : Option JVal → Option (Option (List String))
  | none => some none
  | some (.arr xs) => (decodeStrList xs).map some
  | some _ => none

/-- Typed view of a site-metadata JSON object (the reads the worker performs
on the dynamic value, made explicit). -/
def decodeSite (j : JVal) : Option SiteMetadata :=
  match decodeStr (j.getField "name"), decodeStr (j.getField "domain"),
      decodeOptStr (j.getField "description"), decodeOptStr (j.getField "toolPrefix") with
  | some n, some d, some de, some tp => some ⟨n, d, de, tp⟩
  | _, _, _, _ => none

/-- Typed view of a page JSON object. -/
def decodePage (j : JVal) : Option SearchPage :=
  match decodeStr (j.getField "url"), decodeStr (j.getField "title"),
      decodeOptStr (j.getField "abstract"), decodeOptStr (j.getField "date"),
      decodeOptTopics (j.getField "topics"), decodeOptStr (j.getField "body") with
  | some u, some t, some a, some d, some tp, some b => some ⟨u, t, a, d, tp, b⟩
  | _, _, _, _, _, _ => none

/-- Typed view of a page array. -/
def decodePages : List JVal → Option (List SearchPage)
  | [] => some []
  | j :: rest =>
    match decodePage j, decodePages rest with
    | some p, some ps => some (p :: ps)
    | _, _ => none

/-- Typed view of a whole index document. -/
def decodeIndex (j : JVal) : Option RawIndex :=
  match decodeStr (j.getField "version"), decodeStr (j.getField "generated"),
      (match j.getField "site" with
       | none => some none
       | some js => (decodeSite js).map some),
      (match j.getField "pageCount" with
       | some (.num n) => some n
       | _ => none),
      (match j.getField "pages" with
       | some (.arr xs) => decodePages xs
       | _ => none) with
  | some v, some g, some s, some pc, some ps => some ⟨v, g, s, pc, ps⟩
  | _, _, _, _, _ => none

/-- The default site metadata of the legacy migration, as a typed record. -/
def defaultSite : SiteMetadata :=
  ⟨"Website", "example.com", some "Search this website", none⟩

/-- `findArticle` from src, over the snapshot's page sequence: prefix a
slash when missing, strip one trailing slash, then exact first match. -/
def findArticle (pages : List SearchPage) (url : String) : Option SearchPage :=
  let normalizedUrl := if jsStarts url "/" then url else "/" ++ url
  let cleanUrl :=
    if jsEnds normalizedUrl "/" then jsDropRight normalizedUrl 1 else normalizedUrl
  pages.find? (fun page => page.url == cleanUrl)

/-- Modelled from the spec: `searchPages` delegates scoring and ranking to
the Fuse.js library, which is not part of this repository.  Per §4.5 and the
Fuse options set in src (weights title 0.30, abstract 0.20, body 0.35,
topics 0.15 with each topic a candidate; threshold 0.4; ignoreLocation), the
combined score of a page is the weighted sum of the per-field scores of the
present fields, for an arbitrary normalized per-field scorer `sc`. -/
def combinedScore (sc : String → String → ℚ) (q : String) (p : SearchPage) : ℚ :=
  3 / 10 * sc q p.title +
  (match p.abstract with
   | some a => 2 / 10 * sc q a
   | none => 0) +
  (match p.body with
   | some b => 35 / 100 * sc q b
   | none => 0) +
  (match p.topics with
   | some (t :: ts) => 15 / 100 * ts.foldl (fun acc x => min acc (sc q x)) (sc q t)
   | _ => 0)

/-- A scored page together with its original position in the index's page
sequence (Fuse's result entries before truncation). -/
structure ScoredPage where
  idx : Nat
  page : SearchPage
  score : ℚ
deriving DecidableEq

/-- The result order: ascending score, ties broken by original position
(Fuse's default comparator, as §4.5 states it). -/
def rankLe (a b : ScoredPage) : Prop :=
  a.score < b.score ∨ (a.score = b.score ∧ a.idx ≤ b.idx)

instance : DecidableRel rankLe := fun a b => by
  unfold rankLe; infer_instance

/-- Modelled from the spec: the ranked result list of `searchPages` before
truncation — score every page, keep those within the 0.4 acceptance
threshold, and sort them by `rankLe`. -/
def searchRanked (sc : String → String → ℚ) (pages : List SearchPage) (q : String) :
    List ScoredPage :=
  ((pages.enum.map (fun ip => ⟨ip.1, ip.2, combinedScore sc q ip.2⟩)).filter
    (fun e => e.score ≤ 2 / 5)).insertionSort rankLe

/-- Modelled from the spec: `searchPages` — the ranked results truncated to
`limit`, projected back to pages. -/
def searchPagesSpec (sc : String → String → ℚ) (pages : List SearchPage) (q : String)
    (limit : Nat) : List SearchPage :=
  ((searchRanked sc pages q).map ScoredPage.page).take limit

/-- The zod input schema of the search tool,
`z.number().min(1).max(25).optional()`: absent is accepted, a number must
lie within `[1, 25]` or the request is rejected before the handler runs. -/
def zodLimitOk : Option Int → Bool
  | none => true
  | some n => decide (1 ≤ n) && decide (n ≤ 25)

/-- `Math.min(limit || DEFAULT_LIMIT, MAX_LIMIT)` from the search tool
handler (`0` is falsy, so it also falls back to the default). -/
def effectiveLimit (limit : Option Int) : Int :=
  min
    (match limit with
     | none => 10
     | some n => if n = 0 then 10 else n) 25

/-- The search tool's input path for a given index snapshot: schema
validation by the transport layer, then the handler's effective limit and
`searchPages` call. -/
def searchToolCall (sc : String → String → ℚ) (pages : List SearchPage) (q : String)
    (limit : Option Int) : Except String (List SearchPage) :=
  if zodLimitOk limit then
    .ok (searchPagesSpec sc pages q (effectiveLimit limit).toNat)
  else .error "Invalid arguments for tool search"

/-- `getFullUrl` from src/types.ts (whose text the sources carry inside
src/docs/index-specification.md): the https scheme, the site's domain, and
the page's url path. -/
def getFullUrl (site : SiteMetadata) (path : String) : String :=
  "https://" ++ site.domain ++ path

/-- `topics.join(", ")`. -/
def joinComma (ts : List String) : String := String.intercalate ", " ts

/-- The lines `formatResults` pushes for one page: title, URL, then date,
topics and summary when present, the summary truncated to 200 characters
with an ellipsis, and a blank separator line. -/
def resultPageLines (site : SiteMetadata) (page : SearchPage) : List String :=
  ["**" ++ page.title ++ "**", "URL: " ++ getFullUrl site page.url] ++
  (match page.date with
   | some d => if d != "" then ["Date: " ++ d] else []
   | none => []) ++
  (match page.topics with
   | some ts => if ts.length > 0 then ["Topics: " ++ joinComma ts] else []
   | none => []) ++
  (match page.abstract with
   | some a =>
     if a != "" then
       [if jsLen a > 200 then "Summary: " ++ jsTake a 200 ++ "..."
        else "Summary: " ++ a]
     else []
   | none => []) ++
  [""]

/-- `formatResults` from src. -/
def formatResults (results : List SearchPage) (query : String) (site : SiteMetadata) :
    String :=
  if results.length = 0 then
    "No articles found matching \"" ++ query ++ "\"."
  else
    String.intercalate "\n"
      (("Found " ++ toString results.length ++ " article(s) matching \"" ++ query ++
        "\":\n") :: (results.map (resultPageLines site)).flatten)

/-- The line list `formatArticle` builds: header, URL, optional date, topics
and untruncated summary, a rule, then the body or a placeholder. -/
def articleLines (article : SearchPage) (site : SiteMetadata) : List String :=
  ["# " ++ article.title, "", "**URL:** " ++ getFullUrl site article.url] ++
  (match article.date with
   | some d => if d != "" then ["**Date:** " ++ d] else []
   | none => []) ++
  (match article.topics with
   | some ts => if ts.length > 0 then ["**Topics:** " ++ joinComma ts] else []
   | none => []) ++
  (match article.abstract with
   | some a => if a != "" then ["**Summary:** " ++ a] else []
   | none => []) ++
  ["", "---", ""] ++
  [match article.body with
   | some b => if b != "" then b else "(Full content not available)"
   | none => "(Full content not available)"]

/-- `formatArticle` from src. -/
def formatArticle (article : SearchPage) (site : SiteMetadata) : String :=
  String.intercalate "\n" (articleLines article site)

/-! Helper lemmas shared by the claim theorems. -/

theorem idxOfChar_append (k w : List Char) (hk : ':' ∉ k) :
    idxOfChar ':' (k ++ ':' :: w) = some k.length := by
  induction k with
  | nil => simp [idxOfChar]
  | cons c cs ih =>
    have hc : ¬ (c = ':') := fun h => hk (by rw [← h]; exact List.mem_cons_self c cs)
    simp only [List.cons_append, idxOfChar, if_neg hc, List.append_eq,
      ih (fun h => hk (List.mem_cons_of_mem c h))]
    rfl

theorem decodeStrList_map (ts : List String) : decodeStrList (ts.map JVal.str) = some ts := by
  induction ts with
  | nil => rfl
  | cons t ts ih => simp [decodeStrList, ih]

theorem decodePage_encodePage (p : SearchPage) : decodePage (encodePage p) = some p := by
  obtain ⟨u, t, a, d, tp, b⟩ := p
  cases a <;> cases d <;> cases b <;> cases tp <;>
    simp [decodePage, encodePage, optField, JVal.getField, jLook, decodeStr, decodeOptStr,
      decodeOptTopics, decodeStrList_map, List.find?]

theorem decodeSite_encodeSite (s : SiteMetadata) : decodeSite (encodeSite s) = some s := by
  obtain ⟨n, d, de, tp⟩ := s
  cases de <;> cases tp <;> rfl

theorem decodePages_encode (ps : List SearchPage) :
    decodePages (ps.map encodePage) = some ps := by
  induction ps with
  | nil => rfl
  | cons p ps ih => simp [decodePages, decodePage_encodePage, ih]

theorem jTruthy_encodeSite (s : SiteMetadata) : jTruthy (encodeSite s) = true := rfl

theorem getSearchIndex_stale_eq (store : Option R2Payload) (st : CacheState) (now : Int)
    (hfetch : st.cachedIndex = none ∨ CACHE_TTL_MS ≤ now - st.cacheTimestamp) :
    getSearchIndex store st now = getSearchIndexFetch store st now := by
  obtain ⟨ci, ts⟩ := st
  rcases hfetch with h | h
  · simp only at h
    subst h
    rfl
  · rcases ci with _ | idx
    · rfl
    · simp only at h
      simp [getSearchIndex, not_lt.mpr h]

instance : IsTrans ScoredPage rankLe := by
  constructor
  rintro a b c (h1 | ⟨h1, h1'⟩) (h2 | ⟨h2, h2'⟩)
  · exact Or.inl (h1.trans h2)
  · exact Or.inl (by rw [← h2]; exact h1)
  · exact Or.inl (by rw [h1]; exact h2)
  · exact Or.inr ⟨h1.trans h2, h1'.trans h2'⟩

instance : IsTotal ScoredPage rankLe := by
  constructor
  intro a b
  rcases lt_trichotomy a.score b.score with h | h | h
  · exact Or.inl (Or.inl h)
  · rcases Nat.le_total a.idx b.idx with h' | h'
    · exact Or.inl (Or.inr ⟨h, h'⟩)
    · exact Or.inr (Or.inr ⟨h.symm, h'⟩)
  · exact Or.inr (Or.inl h)

/-! The claims. -/

/-- Claim C1, counterexample: `findArticle` does not return the root page for
its own url.  For an index holding a single page with url "/", the lookup
normalizes "/" to the empty string (one trailing slash is stripped) and finds
nothing, so FindByUrl(p.url) does not return a page with url equal to p.url. -/
theorem findArticle_root_counterexample :
    findArticle [⟨"/", "Home", none, none, none, none⟩] "/" = none := rfl

/-- Claim C1 (amended): for every page p of the index whose url starts with
a slash and does not end with one, `findArticle` at p.url returns a page
whose url equals p.url.  The root page "/" is excluded: its trailing slash
is stripped and the lookup key becomes the empty string. -/
theorem findArticle_url_roundtrip (pages : List SearchPage) (p : SearchPage)
    (hmem : p ∈ pages) (hstart : jsStarts p.url "/" = true)
    (hend : jsEnds p.url "/" = false) :
    ∃ q, findArticle pages p.url = some q ∧ q.url = p.url := by
  unfold findArticle
  simp only [hstart, hend, if_true, if_false, Bool.false_eq_true, ite_false, ite_true]
  have hs : (pages.find? (fun page => page.url == p.url)).isSome = true :=
    List.find?_isSome.mpr ⟨p, hmem, by simp⟩
  obtain ⟨q, hq⟩ := Option.isSome_iff_exists.mp hs
  refine ⟨q, hq, ?_⟩
  have := List.find?_some hq
  simpa using this

/-- Witness for the amended claim C1 at a concrete one-page index. -/
theorem findArticle_url_roundtrip_witness :
    ∃ q, findArticle [⟨"/about", "About", none, none, none, none⟩] "/about" = some q ∧
      q.url = "/about" := by
  have := findArticle_url_roundtrip [⟨"/about", "About", none, none, none, none⟩]
    ⟨"/about", "About", none, none, none, none⟩ (by decide) (by decide) (by decide)
  simpa using this

/-- Claim C2: with a held snapshot fetched at time t, a `getSearchIndex`
call at time now with now − t below the one-hour TTL returns the held
snapshot unchanged with no fetch; a call at or past the TTL performs exactly
one fetch, and whenever the fetched payload migrates without throwing, the
snapshot and the timestamp are both replaced (failing fetches, which replace
nothing, are the subject of C3). -/
theorem getSearchIndex_ttl (idx : JVal) (t now : Int) (store : Option R2Payload) :
    (now - t < CACHE_TTL_MS →
      getSearchIndex store ⟨some idx, t⟩ now = ⟨.ok idx, ⟨some idx, t⟩, 0⟩) ∧
    (CACHE_TTL_MS ≤ now - t →
      (getSearchIndex store ⟨some idx, t⟩ now).fetches = 1 ∧
      ∀ j d, store = some (.valid j) → migrateIndex j = some d →
        getSearchIndex store ⟨some idx, t⟩ now = ⟨.ok d, ⟨some d, now⟩, 1⟩) := by
  constructor
  · intro h
    simp [getSearchIndex, h]
  · intro h
    have hn : ¬ (now - t < CACHE_TTL_MS) := not_lt.mpr h
    constructor
    · rcases store with _ | p
      · simp [getSearchIndex, hn, getSearchIndexFetch]
      · rcases p with _ | j
        · simp [getSearchIndex, hn, getSearchIndexFetch]
        · rcases hj : migrateIndex j with _ | d <;>
            simp [getSearchIndex, hn, getSearchIndexFetch, hj]
    · rintro j d rfl hj
      simp [getSearchIndex, hn, getSearchIndexFetch, hj]

/-- Witness for claim C2: a fresh call (5 ms after the fetch) serves the
cache without fetching, and a call exactly at the TTL refetches and replaces
the pair with the migrated payload. -/
theorem getSearchIndex_ttl_witness :
    getSearchIndex (some (.valid (JVal.obj []))) ⟨some (JVal.obj []), 0⟩ 5 =
      ⟨.ok (JVal.obj []), ⟨some (JVal.obj []), 0⟩, 0⟩ ∧
    getSearchIndex (some (.valid (JVal.obj []))) ⟨some (JVal.obj []), 0⟩ 3600000 =
      ⟨.ok (JVal.obj [("site", defaultSiteJVal)]),
        ⟨some (JVal.obj [("site", defaultSiteJVal)]), 3600000⟩, 1⟩ :=
  ⟨(getSearchIndex_ttl (JVal.obj []) 0 5 (some (.valid (JVal.obj [])))).1 (by decide),
   ((getSearchIndex_ttl (JVal.obj []) 0 3600000 (some (.valid (JVal.obj [])))).2
     (by decide)).2 (JVal.obj []) (JVal.obj [("site", defaultSiteJVal)]) rfl rfl⟩

/-- Claim C3, counterexample: a payload of JSON `null` deserializes fine
(the store neither reports the key missing nor an invalid payload), yet a
stale `getSearchIndex` call errors — the site migration throws a TypeError
— so the claim's "errors exactly when the key is missing or the payload
fails to deserialize" is false of the program. -/
theorem getSearchIndex_null_payload_counterexample :
    (getSearchIndex (some (.valid .null)) ⟨some (JVal.obj []), 0⟩ 3600000).result =
      .error "TypeError while migrating a non-object index payload" ∧
    some (R2Payload.valid .null) ≠ (none : Option R2Payload) ∧
    some (R2Payload.valid .null) ≠ some R2Payload.invalid :=
  ⟨rfl, by simp, by simp⟩

/-- Claim C3 (amended): on the fetch path (no snapshot, or the held one is
at or past the TTL), `getSearchIndex` errors exactly when the blob store
has no object at the key, the payload fails to parse as JSON, or the
payload parses to a JSON value that is neither an object nor an array (the
site migration then throws a TypeError); on every such failure the cache
pair is left unchanged and exactly one fetch was performed, and the error
is surfaced even when a prior snapshot exists — the state quantifies over
every held snapshot. -/
theorem getSearchIndex_error_iff (st : CacheState) (now : Int) (store : Option R2Payload)
    (hfetch : st.cachedIndex = none ∨ CACHE_TTL_MS ≤ now - st.cacheTimestamp) :
    ((∃ msg, (getSearchIndex store st now).result = .error msg) ↔
      store = none ∨ store = some .invalid ∨
        ∃ j, store = some (.valid j) ∧ migrateIndex j = none) ∧
    ((∃ msg, (getSearchIndex store st now).result = .error msg) →
      (getSearchIndex store st now).state = st ∧
      (getSearchIndex store st now).fetches = 1) := by
  rw [getSearchIndex_stale_eq store st now hfetch]
  rcases store with _ | p
  · exact ⟨⟨fun _ => Or.inl rfl, fun _ => ⟨_, rfl⟩⟩, fun _ => ⟨rfl, rfl⟩⟩
  · rcases p with _ | j
    · exact ⟨⟨fun _ => Or.inr (Or.inl rfl), fun _ => ⟨_, rfl⟩⟩, fun _ => ⟨rfl, rfl⟩⟩
    · rcases hj : migrateIndex j with _ | d
      · refine ⟨⟨fun _ => Or.inr (Or.inr ⟨j, rfl, hj⟩), fun _ => ?_⟩, fun _ => ?_⟩
        · refine ⟨"TypeError while migrating a non-object index payload", ?_⟩
          simp [getSearchIndexFetch, hj]
        · constructor <;> simp [getSearchIndexFetch, hj]
      · constructor
        · constructor
          · rintro ⟨msg, hmsg⟩
            simp [getSearchIndexFetch, hj] at hmsg
          · rintro (h | h | ⟨j', hj', hm⟩)
            · exact absurd h (by simp)
            · exact absurd h (by simp)
            · obtain rfl : j = j' := R2Payload.valid.inj (Option.some.inj hj')
              exact absurd hm (by simp [hj])
        · rintro ⟨msg, hmsg⟩
          simp [getSearchIndexFetch, hj] at hmsg

/-- Witness for the amended claim C3 at a stale state holding a prior
snapshot, with a JSON `null` payload: the error leaves the cache pair
unchanged after exactly one fetch. -/
theorem getSearchIndex_error_iff_witness :
    (getSearchIndex (some (.valid .null)) ⟨some (JVal.obj []), 0⟩ 3600000).state =
      ⟨some (JVal.obj []), 0⟩ ∧
    (getSearchIndex (some (.valid .null)) ⟨some (JVal.obj []), 0⟩ 3600000).fetches = 1 :=
  (getSearchIndex_error_iff ⟨some (JVal.obj []), 0⟩ 3600000 (some (.valid .null))
    (Or.inr (by decide))).2 ⟨_, rfl⟩

/-- Claim C4, counterexample: a limit of 0 does not succeed with clamping —
the zod schema `min(1).max(25)` rejects it before the handler's clamp can
run, so the search call fails with a validation error. -/
theorem searchTool_limit_zero_counterexample :
    searchToolCall (fun _ _ => 0) [⟨"/a", "Alpha", none, none, none, none⟩] "alpha"
      (some 0) = .error "Invalid arguments for tool search" := rfl

/-- Claim C4 (amended): an integer limit outside [1, 25] is rejected by the
search tool's input schema rather than clamped; an absent limit defaults to
10 (the handler's `Math.min(limit || 10, 25)` clamp only ever sees values
the schema already accepted). -/
theorem searchTool_limit_validation (sc : String → String → ℚ) (pages : List SearchPage)
    (q : String) (n : Int) :
    ((n < 1 ∨ 25 < n) →
      searchToolCall sc pages q (some n) = .error "Invalid arguments for tool search") ∧
    searchToolCall sc pages q none = .ok (searchPagesSpec sc pages q 10) := by
  constructor
  · intro h
    have hz : zodLimitOk (some n) = false := by
      rcases h with h | h <;> simp [zodLimitOk] <;> omega
    simp [searchToolCall, hz]
  · rfl

/-- Witness for the amended claim C4 at the out-of-range limit 26. -/
theorem searchTool_limit_validation_witness :
    searchToolCall (fun _ _ => 0) [] "q" (some 26) =
      .error "Invalid arguments for tool search" :=
  (searchTool_limit_validation (fun _ _ => 0) [] "q" 26).1 (Or.inr (by decide))

/-- Claim C5: building an index from pages P and site s, serializing it, and
re-ingesting the parsed document through the cache's migration step yields
an index whose pages are P (same order and content) and whose site is s; a
serialized artifact lacking the site field re-ingests with exactly the
default site (name "Website", domain "example.com", description "Search
this website"). -/
theorem index_serialization_roundtrip (P : List SearchPage) (s : SiteMetadata)
    (gen : String) :
    (buildIndex P s gen).pages = P ∧ (buildIndex P s gen).site = some s ∧
    (migrateIndex (encodeIndex (buildIndex P s gen))).bind decodeIndex =
      some (buildIndex P s gen) ∧
    ∀ (version generated : String) (pc : Int) (pages : List SearchPage),
      (migrateIndex (encodeIndex ⟨version, generated, none, pc, pages⟩)).bind decodeIndex =
        some ⟨version, generated, some defaultSite, pc, pages⟩ := by
  refine ⟨rfl, rfl, ?_, ?_⟩
  · simp [buildIndex, encodeIndex, migrateIndex, jLook, jTruthyOpt, jTruthy_encodeSite,
      decodeIndex, JVal.getField, decodeStr, decodeSite_encodeSite, decodePages_encode,
      List.find?]
  · intro version generated pc pages
    simp [encodeIndex, migrateIndex, jLook, jTruthyOpt, jSet, defaultSiteJVal, defaultSite,
      decodeIndex, JVal.getField, decodeStr, decodeSite, decodeOptStr, decodePages_encode,
      List.find?]

/-- Claim C6: for every per-field scorer, search returns at most `limit`
pages, every returned page's combined weighted score is within the 0.4
acceptance threshold, and the ranked results are ordered by non-decreasing
score with ties broken by original position in the page sequence (the
returned pages being exactly the ranked list truncated to `limit`). -/
theorem searchPages_contract (sc : String → String → ℚ) (pages : List SearchPage)
    (q : String) (limit : Nat) :
    (searchPagesSpec sc pages q limit).length ≤ limit ∧
    (∀ p, p ∈ searchPagesSpec sc pages q limit → combinedScore sc q p ≤ 2 / 5) ∧
    (searchRanked sc pages q).Pairwise rankLe ∧
    searchPagesSpec sc pages q limit =
      ((searchRanked sc pages q).map ScoredPage.page).take limit := by
  refine ⟨List.length_take_le _ _, ?_, List.sorted_insertionSort rankLe _, rfl⟩
  intro p hp
  have hp' := List.mem_of_mem_take hp
  obtain ⟨e, he, rfl⟩ := List.mem_map.mp hp'
  have he' : e ∈ (pages.enum.map
      (fun ip => (⟨ip.1, ip.2, combinedScore sc q ip.2⟩ : ScoredPage))).filter
      (fun e => e.score ≤ 2 / 5) := (List.mem_insertionSort rankLe).mp he
  obtain ⟨hmem, hpred⟩ := List.mem_filter.mp he'
  obtain ⟨ip, _, rfl⟩ := List.mem_map.mp hmem
  simpa using hpred

/-- Witness for claim C6: the matching page of the specification's example
scenario is returned and its score is within the threshold. -/
theorem searchPages_contract_witness :
    combinedScore (fun _ _ => 0) "alpha"
      ⟨"/a", "Alpha guide", none, none, none, some "alpha content here"⟩ ≤ 2 / 5 :=
  (searchPages_contract (fun _ _ => 0)
      [⟨"/a", "Alpha guide", none, none, none, some "alpha content here"⟩] "alpha" 10).2.1
    ⟨"/a", "Alpha guide", none, none, none, some "alpha content here"⟩
    (by simp [searchPagesSpec, searchRanked, combinedScore, List.insertionSort,
        List.orderedInsert, List.enum, List.enumFrom, List.filter]
        norm_num)

/-- Claim C7, counterexample: in the Hugo adapter a quoted TOML draft field
parses to the string "true", and the document is not excluded, because that
adapter's draft check tests for the boolean only. -/
theorem draft_quoted_hugo_counterexample :
    fmGet (parseFrontmatterHugo "+++\ndraft = \"true\"\n+++\nHello").1 "draft" =
      some (.str "true") ∧
    (hugoProcessFile "+++\ndraft = \"true\"\n+++\nHello" "content/post.md"
      "content").isSome = true :=
  ⟨rfl, rfl⟩

/-- Claim C7 (amended): a parsed draft value equal to the string "true" is
excluded by the generic and Astro adapters (whose parsers never produce
booleans), and a parsed draft equal to boolean true is excluded by the Hugo
adapter in both dialects; the Hugo adapter does not exclude a string
"true" draft. -/
theorem draft_filter_amended (content filePath contentDir file : String)
    (excl : List String) :
    (fmGet (parseFrontmatterGeneric content).1 "draft" = some (.str "true") →
      processFileGeneric content filePath contentDir = none) ∧
    (fmGet (parseFrontmatterHugo content).1 "draft" = some (.bool true) →
      hugoProcessFile content filePath contentDir = none) ∧
    (fmGet (astroParseFrontmatter content).1 "draft" = some (.str "true") →
      astroProcessEntry excl file content = none) := by
  refine ⟨?_, ?_, ?_⟩ <;> intro h <;>
    simp [processFileGeneric, hugoProcessFile, astroProcessEntry, h]

/-- Witness for the amended claim C7: a generic-adapter document with
`draft: true` is excluded. -/
theorem draft_filter_amended_witness :
    processFileGeneric "---\ndraft: true\n---\nbody" "content/a.md" "content" = none :=
  (draft_filter_amended "---\ndraft: true\n---\nbody" "content/a.md" "content" "" []).1 rfl

/-- Claim C8, counterexample: the generic adapter's URL derivation maps
`content/_index.md` to "/_index", not to "/" (only its `/index` suffix rule
exists; there is no `_index` handling). -/
theorem pathToUrl_root_counterexample :
    pathToUrl "content/_index.md" "content" = "/_index" ∧
    pathToUrl "content/_index.md" "content" ≠ "/" := by decide

/-- Claim C8 (amended): the stated derivations hold for `content/about.md`
and `content/posts/index.md` in both adapters, and `content/_index.md` maps
to "/" in the Hugo adapter; the generic adapter maps it to "/_index". -/
theorem url_derivation_examples :
    pathToUrl "content/about.md" "content" = "/about" ∧
    pathToUrl "content/posts/index.md" "content" = "/posts" ∧
    pathToUrl "content/_index.md" "content" = "/_index" ∧
    hugoPathToUrl "content/about.md" "content" = "/about" ∧
    hugoPathToUrl "content/posts/index.md" "content" = "/posts" ∧
    hugoPathToUrl "content/_index.md" "content" = "/" := by decide

/-- Claim C9, counterexample: the generic adapter's parser has no boolean
case, so the well-formed line `draft: true` parses to the string "true",
not to a boolean. -/
theorem generic_bool_coercion_counterexample :
    fmGet (parseFrontmatterGeneric "---\ndraft: true\n---\nbody").1 "draft" =
      some (.str "true") ∧ FMValue.str "true" ≠ FMValue.bool true :=
  ⟨rfl, by decide⟩

/-- Claim C9 (amended): in the Hugo adapter's YAML parser the stated
coercion priority holds — for a well-formed line `k: w` (trimmed key
without a colon, value trimming to v) the parsed entry is k bound to the
coerced v, where a bracketed value becomes a list of quote-stripped
elements, then a quoted value becomes the unquoted string, then literal
true/false become booleans, and anything else stays the raw trimmed
string.  (The generic adapter omits the boolean case.) -/
theorem hugo_yaml_coercion (k v w : String)
    (hk1 : k ≠ "") (hk2 : ':' ∉ k.data) (hk3 : jsTrim k = k)
    (hw : jsTrim w = v) :
    parseLineYAMLHugo [] (k.data ++ ':' :: w.data) = [(k, hugoCoerce v)] ∧
    (headIs v '[' = true →
      hugoCoerce v = .list (parseListValue (jsDropRight (jsDrop v 1) 1))) ∧
    (headIs v '[' = false → (headIs v '"' || headIs v squo) = true →
      hugoCoerce v = .str (jsDropRight (jsDrop v 1) 1)) ∧
    (headIs v '[' = false → (headIs v '"' || headIs v squo) = false →
      (v = "true" → hugoCoerce v = .bool true) ∧
      (v = "false" → hugoCoerce v = .bool false) ∧
      (v ≠ "true" → v ≠ "false" → hugoCoerce v = .str v)) := by
  refine ⟨?_, ?_, ?_, ?_⟩
  · have hlen : 0 < k.data.length := by
      cases hd : k.data with
      | nil => exact absurd (by cases k; simp_all) hk1
      | cons a l => simp
    unfold parseLineYAMLHugo
    rw [idxOfChar_append k.data w.data hk2]
    simp only [hlen, if_true, ite_true]
    have htake : (k.data ++ ':' :: w.data).take k.data.length = k.data :=
      List.take_left k.data _
    have hdrop : (k.data ++ ':' :: w.data).drop (k.data.length + 1) = w.data := by
      have h1 : (k.data ++ ':' :: w.data).drop k.data.length = ':' :: w.data :=
        List.drop_left' rfl
      rw [← List.drop_drop, h1]
      rfl
    rw [htake, hdrop]
    show fmSet [] (jsTrim k) (hugoCoerce (jsTrim w)) = [(k, hugoCoerce v)]
    rw [hk3, hw]
    rfl
  · intro h; simp [hugoCoerce, h]
  · intro h1 h2; simp [hugoCoerce, h1, h2]
  · intro h1 h2
    simp only [Bool.or_eq_false_iff] at h2
    refine ⟨?_, ?_, ?_⟩
    · intro hv; subst hv; rfl
    · intro hv; subst hv; rfl
    · intro hv1 hv2; simp [hugoCoerce, h1, h2.1, h2.2, hv1, hv2]

/-- Witness for the amended claim C9 at the line `tags: [a, b]`. -/
theorem hugo_yaml_coercion_witness :
    parseLineYAMLHugo [] ("tags".data ++ ':' :: " [a, b]".data) =
      [("tags", hugoCoerce "[a, b]")] ∧
    hugoCoerce "[a, b]" = .list ["a", "b"] :=
  ⟨(hugo_yaml_coercion "tags" "[a, b]" " [a, b]" (by decide) (by decide) (by decide)
      (by decide)).1,
   by
    have := (hugo_yaml_coercion "tags" "[a, b]" " [a, b]" (by decide) (by decide)
      (by decide) (by decide)).2.1 (by decide)
    rw [this]
    decide⟩

/-- Claim C10: in `formatResults` an abstract longer than 200 characters is
rendered as its first 200 characters followed by "...", an abstract of at
most 200 characters is rendered in full, an empty or absent abstract
produces no Summary line, and `formatArticle` renders the abstract in full
without truncation. -/
theorem format_abstract_truncation (site : SiteMetadata) (p : SearchPage) (a : String) :
    (p.abstract = some a → 200 < jsLen a →
      ("Summary: " ++ jsTake a 200 ++ "...") ∈ resultPageLines site p) ∧
    (p.abstract = some a → a ≠ "" → jsLen a ≤ 200 →
      ("Summary: " ++ a) ∈ resultPageLines site p) ∧
    ((p.abstract = none ∨ p.abstract = some "") →
      (resultPageLines site p).filter (fun l => jsStarts l "Summary: ") = []) ∧
    (p.abstract = some a → a ≠ "" →
      ("**Summary:** " ++ a) ∈ articleLines p site) := by
  refine ⟨?_, ?_, ?_, ?_⟩
  · intro h hlen
    have ha : a ≠ "" := by
      intro h'; subst h'; simp [jsLen] at hlen
    simp [resultPageLines, h, ha, hlen]
  · intro h ha hlen
    have h2 : ¬ (jsLen a > 200) := by omega
    simp [resultPageLines, h, ha, h2]
  · intro h
    rcases hd : p.date with _ | d <;> rcases ht : p.topics with _ | ts <;>
      rcases h with h | h <;>
        simp only [resultPageLines, h, hd, ht, List.filter_append, List.filter_cons,
          List.filter_nil, List.append_nil, List.nil_append] <;>
        split_ifs <;>
        simp_all [jsStarts, String.data_append, List.isPrefixOf, List.filter_cons,
          List.filter_nil]
  · intro h ha
    simp [articleLines, h, ha]

set_option maxRecDepth 20000 in
/-- Witness for claim C10: a 201-character abstract is rendered truncated to
its first 200 characters plus an ellipsis. -/
theorem format_abstract_truncation_witness :
    ("Summary: " ++ jsTake (⟨List.replicate 201 'x'⟩ : String) 200 ++ "...") ∈
      resultPageLines ⟨"W", "example.com", none, none⟩
        ⟨"/w", "W page", some ⟨List.replicate 201 'x'⟩, none, none, none⟩ :=
  (format_abstract_truncation ⟨"W", "example.com", none, none⟩
      ⟨"/w", "W page", some ⟨List.replicate 201 'x'⟩, none, none, none⟩
      ⟨List.replicate 201 'x'⟩).1 rfl (by decide)
